import Mathlib

/-!
Verification of the Hemlock interpreter/compiler core against its
natural-language specification.  The definitions below are shallow
embeddings of the C sources:

* `src/src/interpreter/environment.c` — scoped environments,
* `src/src/interpreter/values.c` — interpreter values and arrays,
* `src/runtime/src/builtins_array.c` — runtime array builtins,
* `src/src/backends/compiler/type_infer.c` — static type inference.

Machine integers (`int`, `int64_t`) are modelled as `Int`; C functions
that print a runtime error and `exit(1)` are modelled as returning
`Except RuntimeError _`, where the message is the printed text after the
fixed prefix and the exit code is recorded explicitly.
-/

namespace Hemlock

/-- A fatal runtime fault: the diagnostic text printed after the
fixed prefix, together with the process exit code. -/
structure RuntimeError where
  message : String
  exitCode : Nat
deriving DecidableEq, Repr

/-- A single-quote character, used to build diagnostic messages. -/
def sq : String := String.singleton (Char.ofNat 39)

/-! ## Inferred types (`type_infer.h`) -/

/-- `InferredTypeKind` from `type_infer.h`. -/
inductive InferKind where
  | unknown
  | i32
  | i64
  | f64
  | bool
  | string
  | null
  | array
  | object
  | function
  | numeric
  | integer
deriving DecidableEq, Fintype, Repr

/-- `InferredType`: a kind plus an optional array element type. -/
inductive InferredType where
  | mk (kind : InferKind) (elementType : Option InferredType)

/-- Field accessor for the `kind` component. -/
def InferredType.kind : InferredType → InferKind
  | .mk k _ => k

def infer_unknown : InferredType := .mk .unknown none

def infer_i32 : InferredType := .mk .i32 none

def infer_i64 : InferredType := .mk .i64 none

def infer_f64 : InferredType := .mk .f64 none

def infer_bool : InferredType := .mk .bool none

def infer_string : InferredType := .mk .string none

def infer_null : InferredType := .mk .null none

def infer_numeric : InferredType := .mk .numeric none

def infer_integer : InferredType := .mk .integer none

def infer_is_i32 (t : InferredType) : Bool := t.kind == .i32

def infer_is_i64 (t : InferredType) : Bool := t.kind == .i64

def infer_is_f64 (t : InferredType) : Bool := t.kind == .f64

def infer_is_integer (t : InferredType) : Bool :=
  t.kind == .i32 || t.kind == .i64 || t.kind == .integer

def infer_is_numeric (t : InferredType) : Bool :=
  t.kind == .i32 || t.kind == .i64 || t.kind == .f64 ||
  t.kind == .numeric || t.kind == .integer

/-- `infer_meet` from `type_infer.c`: merge the types of two control-flow
paths. -/
def infer_meet (a b : InferredType) : InferredType :=
  if a.kind == b.kind then a
  else if a.kind == .unknown then a
  else if b.kind == .unknown then b
  else if infer_is_integer a && infer_is_integer b then
    if a.kind == .i32 && b.kind == .i32 then infer_i32
    else if a.kind == .i64 && b.kind == .i64 then infer_i64
    else infer_integer
  else if infer_is_numeric a && infer_is_numeric b then infer_numeric
  else infer_unknown

/-- Kind-level image of `infer_meet`: the kind of the result is a function
of the operand kinds alone. -/
def kindMeet (x y : InferKind) : InferKind :=
  if x == y then x
  else if x == .unknown then .unknown
  else if y == .unknown then .unknown
  else if (x == .i32 || x == .i64 || x == .integer) &&
          (y == .i32 || y == .i64 || y == .integer) then
    if x == .i32 && y == .i32 then .i32
    else if x == .i64 && y == .i64 then .i64
    else .integer
  else if (x == .i32 || x == .i64 || x == .f64 || x == .numeric || x == .integer) &&
          (y == .i32 || y == .i64 || y == .f64 || y == .numeric || y == .integer) then
    .numeric
  else .unknown

lemma infer_meet_kind (a b : InferredType) :
    (infer_meet a b).kind = kindMeet a.kind b.kind := by
  unfold infer_meet kindMeet infer_is_integer infer_is_numeric
  split_ifs with h1 h2 h3 h4 h5 h6 h7 <;>
    first
      | rfl
      | (exact eq_of_beq h2)
      | (exact eq_of_beq h3)

lemma kindMeet_comm : ∀ x y : InferKind, kindMeet x y = kindMeet y x := by
  decide

/-! ## AST (`ast.h` / `ast.c`, as consumed by `type_infer.c`) -/

/-- Static `TypeKind` used by type annotations. -/
inductive TypeKind where
  | i8
  | i16
  | i32
  | i64
  | u8
  | u16
  | u32
  | u64
  | f32
  | f64
  | bool
  | string
  | array
  | object
  | function
  | ptr
  | void
  | any
deriving DecidableEq, Repr

/-- Binary operators. -/
inductive BinaryOp where
  | add
  | sub
  | mul
  | div
  | mod
  | equal
  | notEqual
  | less
  | lessEqual
  | greater
  | greaterEqual
  | and
  | or
  | bitAnd
  | bitOr
  | bitXor
  | bitLshift
  | bitRshift
deriving DecidableEq, Repr

/-- Unary operators. -/
inductive UnaryOp where
  | negate
  | not
  | bitNot
deriving DecidableEq, Repr

mutual

/-- Expression nodes.  A `NUMBER` node carries a 64-bit integer value and
an `is_float` flag (the float payload itself is never read by the type
inferer and is omitted). -/
inductive Expr where
  | number (intValue : Int) (isFloat : Bool)
  | boolLit (b : Bool)
  | stringLit (s : String)
  | stringInterp (parts : List Expr)
  | nullLit
  | runeLit (codepoint : Int)
  | ident (name : String)
  | binary (op : BinaryOp) (left right : Expr)
  | unary (op : UnaryOp) (operand : Expr)
  | assign (name : String) (value : Expr)
  | ternary (cond trueExpr falseExpr : Expr)
  | call (func : Expr) (args : List Expr)
  | arrayLit (elems : List Expr)
  | objectLit
  | funcLit (paramNames : List String) (paramTypes : List (Option TypeKind)) (body : Stmt)
  | indexE (obj idx : Expr)
  | indexAssign (obj idx value : Expr)
  | getProp (obj : Expr) (prop : String)
  | prefixInc (operand : Expr)
  | prefixDec (operand : Expr)
  | postfixInc (operand : Expr)
  | postfixDec (operand : Expr)
  | awaitE (operand : Expr)
  | nullCoalesce (left right : Expr)

/-- Statement nodes. -/
inductive Stmt where
  | letStmt (name : String) (annot : Option TypeKind) (value : Option Expr)
  | constStmt (name : String) (annot : Option TypeKind) (value : Option Expr)
  | block (stmts : List Stmt)
  | ifStmt (cond : Expr) (thenBr : Stmt) (elseBr : Option Stmt)
  | whileStmt (cond : Expr) (body : Stmt)
  | forStmt (forInit : Option Stmt) (cond : Option Expr) (incr : Option Expr) (body : Stmt)
  | exprStmt (e : Expr)
  | returnStmt (value : Option Expr)
  | breakStmt
  | continueStmt

end

/-- `expr_number_int` from `ast.c`: an integer literal node with
`is_float = 0`. -/
def expr_number_int (v : Int) : Expr := .number v false

/-! ## Type-inference environments (`type_infer.c`) -/

/-- One scope of the type environment: bindings in most-recent-first
order, mirroring the prepend-on-bind linked list. -/
abbrev TypeBindings := List (String × InferredType)

/-- `TypeInferContext`: the current scope, its enclosing scopes
(innermost first), the function-return registry and the fixpoint flag. -/
structure TypeInferContext where
  current : TypeBindings
  parents : List TypeBindings
  funcReturns : List (String × InferredType)
  changed : Bool

/-- First binding of `n` in one scope (the C inner loop). -/
def bindingsFind (bs : TypeBindings) (n : String) : Option InferredType :=
  match bs with
  | [] => none
  | (m, t) :: rest => if m = n then some t else bindingsFind rest n

/-- The scope chain, innermost first. -/
def chainScopes (ctx : TypeInferContext) : List TypeBindings :=
  ctx.current :: ctx.parents

/-- First binding of `n` along a scope chain (the C outer loop). -/
def chainFind (scopes : List TypeBindings) (n : String) : Option InferredType :=
  match scopes with
  | [] => none
  | bs :: rest =>
    match bindingsFind bs n with
    | some t => some t
    | none => chainFind rest n

/-- `type_env_bind`: prepend a binding to the current scope. -/
def type_env_bind (ctx : TypeInferContext) (n : String) (t : InferredType) :
    TypeInferContext :=
  { ctx with current := (n, t) :: ctx.current }

/-- `type_env_lookup`: first binding along the chain, `UNKNOWN` if absent. -/
def type_env_lookup (ctx : TypeInferContext) (n : String) : InferredType :=
  (chainFind (chainScopes ctx) n).getD infer_unknown

/-- `type_env_push`: open a fresh empty scope. -/
def type_env_push (ctx : TypeInferContext) : TypeInferContext :=
  { ctx with current := [], parents := ctx.current :: ctx.parents }

/-- `type_env_pop`: discard the current scope.  (The C code never pops
the root scope; popping it here is a no-op.) -/
def type_env_pop (ctx : TypeInferContext) : TypeInferContext :=
  match ctx.parents with
  | [] => ctx
  | p :: ps => { ctx with current := p, parents := ps }

/-- The refinement step of `type_env_refine`: `some t` when the binding
is replaced by the incoming type `t`, `none` when it is left alone. -/
def refineBinding (old t : InferredType) : Option InferredType :=
  if old.kind == .unknown && !(t.kind == .unknown) then some t
  else if old.kind == .numeric && infer_is_integer t then some t
  else if old.kind == .integer && (t.kind == .i32 || t.kind == .i64) then some t
  else none

/-- Refine the first binding of `n` inside one scope; `none` when the
scope does not bind `n`.  The returned flag records whether the binding
actually changed. -/
def bindingsRefine (bs : TypeBindings) (n : String) (t : InferredType) :
    Option (TypeBindings × Bool) :=
  match bs with
  | [] => none
  | (m, old) :: rest =>
    if m = n then
      match refineBinding old t with
      | some t2 => some ((m, t2) :: rest, true)
      | none => some ((m, old) :: rest, false)
    else
      match bindingsRefine rest n t with
      | none => none
      | some (rest2, ch) => some ((m, old) :: rest2, ch)

/-- Refine the first binding of `n` along a list of scopes. -/
def chainRefine (scopes : List TypeBindings) (n : String) (t : InferredType) :
    Option (List TypeBindings × Bool) :=
  match scopes with
  | [] => none
  | bs :: rest =>
    match bindingsRefine bs n t with
    | some (bs2, ch) => some (bs2 :: rest, ch)
    | none =>
      match chainRefine rest n t with
      | none => none
      | some (rest2, ch) => some (bs :: rest2, ch)

/-- `type_env_refine`: walk the chain for the first binding of `n` and
strengthen it when the incoming type is strictly more specific; set the
`changed` flag exactly when a binding was replaced. -/
def type_env_refine (ctx : TypeInferContext) (n : String) (t : InferredType) :
    TypeInferContext :=
  match bindingsRefine ctx.current n t with
  | some (c2, ch) => { ctx with current := c2, changed := ctx.changed || ch }
  | none =>
    match chainRefine ctx.parents n t with
    | some (ps2, ch) => { ctx with parents := ps2, changed := ctx.changed || ch }
    | none => ctx

/-- `type_lookup_func_return`: registry lookup, `UNKNOWN` if absent. -/
def type_lookup_func_return (ctx : TypeInferContext) (n : String) : InferredType :=
  (bindingsFind ctx.funcReturns n).getD infer_unknown

/-! ## Inference rules (`type_infer.c`) -/

/-- `infer_binary_result`. -/
def infer_binary_result (op : BinaryOp) (left right : InferredType) : InferredType :=
  match op with
  | .add | .sub | .mul =>
    if infer_is_f64 left || infer_is_f64 right then infer_f64
    else if infer_is_i64 left || infer_is_i64 right then infer_i64
    else if infer_is_i32 left && infer_is_i32 right then infer_i32
    else if infer_is_integer left && infer_is_integer right then infer_integer
    else if infer_is_numeric left && infer_is_numeric right then infer_numeric
    else if op == .add && (left.kind == .string || right.kind == .string) then infer_string
    else infer_unknown
  | .div => infer_f64
  | .mod =>
    if infer_is_i64 left || infer_is_i64 right then infer_i64
    else if infer_is_i32 left && infer_is_i32 right then infer_i32
    else if infer_is_integer left && infer_is_integer right then infer_integer
    else infer_numeric
  | .equal | .notEqual | .less | .lessEqual | .greater | .greaterEqual => infer_bool
  | .and | .or => infer_bool
  | .bitAnd | .bitOr | .bitXor | .bitLshift | .bitRshift =>
    if infer_is_i64 left || infer_is_i64 right then infer_i64
    else if infer_is_i32 left && infer_is_i32 right then infer_i32
    else infer_integer

/-- `infer_unary_result`. -/
def infer_unary_result (op : UnaryOp) (operand : InferredType) : InferredType :=
  match op with
  | .negate => operand
  | .not => infer_bool
  | .bitNot => operand

/-- The annotation switch shared verbatim by the `STMT_LET`, `STMT_CONST`
and parameter cases: primitive annotation kinds override the initializer
type (`F32` collapsing to `F64`); every other kind falls through to the
`default:` branch and keeps the initializer type. -/
def annotKindType (k : TypeKind) (initType : InferredType) : InferredType :=
  match k with
  | .i32 => infer_i32
  | .i64 => infer_i64
  | .f32 => infer_f64
  | .f64 => infer_f64
  | .bool => infer_bool
  | .string => infer_string
  | _ => initType

mutual

/-- `infer_expr`: the inferred type of an expression, together with the
context as updated by any embedded `ASSIGN` refinements.  The C code
mutates `ctx` in place; state passing makes the threading explicit. -/
def infer_expr (ctx : TypeInferContext) (e : Expr) : InferredType × TypeInferContext :=
  match e with
  | .number v isFloat =>
    (if isFloat then infer_f64
     else if -2147483648 ≤ v ∧ v ≤ 2147483647 then infer_i32
     else infer_i64, ctx)
  | .boolLit _ => (infer_bool, ctx)
  | .stringLit _ => (infer_string, ctx)
  | .stringInterp _ => (infer_string, ctx)
  | .nullLit => (infer_null, ctx)
  | .ident n => (type_env_lookup ctx n, ctx)
  | .binary op l r =>
    let p := infer_expr ctx l
    let q := infer_expr p.2 r
    (infer_binary_result op p.1 q.1, q.2)
  | .unary op x =>
    let p := infer_expr ctx x
    (infer_unary_result op p.1, p.2)
  | .assign n v =>
    let p := infer_expr ctx v
    (p.1, type_env_refine p.2 n p.1)
  | .ternary _ t f =>
    let p := infer_expr ctx t
    let q := infer_expr p.2 f
    (infer_meet p.1 q.1, q.2)
  | .call f _ =>
    match f with
    | .ident n => (type_lookup_func_return ctx n, ctx)
    | _ => (infer_unknown, ctx)
  | .arrayLit _ => (InferredType.mk .array none, ctx)
  | .objectLit => (InferredType.mk .object none, ctx)
  | .funcLit _ _ _ => (InferredType.mk .function none, ctx)
  | .indexE _ _ => (infer_unknown, ctx)
  | .indexAssign _ _ _ => (infer_unknown, ctx)
  | .getProp _ _ => (infer_unknown, ctx)
  | .prefixInc x => infer_expr ctx x
  | .prefixDec x => infer_expr ctx x
  | .postfixInc x => infer_expr ctx x
  | .postfixDec x => infer_expr ctx x
  | .runeLit _ => (infer_i32, ctx)
  | .awaitE _ => (infer_unknown, ctx)
  | .nullCoalesce l r =>
    let p := infer_expr ctx l
    let q := infer_expr p.2 r
    (if p.1.kind == .null then q.1 else infer_meet p.1 q.1, q.2)

/-- `infer_stmt`: update the context with the bindings a statement
introduces. -/
def infer_stmt (ctx : TypeInferContext) (s : Stmt) : TypeInferContext :=
  match s with
  | .letStmt n annot v =>
    let p :=
      match v with
      | some e => infer_expr ctx e
      | none => (infer_unknown, ctx)
    let t :=
      match annot with
      | some k => annotKindType k p.1
      | none => p.1
    type_env_bind p.2 n t
  | .constStmt n annot v =>
    let p :=
      match v with
      | some e => infer_expr ctx e
      | none => (infer_unknown, ctx)
    let t :=
      match annot with
      | some k => annotKindType k p.1
      | none => p.1
    type_env_bind p.2 n t
  | .block ss => type_env_pop (infer_stmts (type_env_push ctx) ss)
  | .ifStmt c t e =>
    let ctx1 := (infer_expr ctx c).2
    let ctx2 := infer_stmt ctx1 t
    match e with
    | some eb => infer_stmt ctx2 eb
    | none => ctx2
  | .whileStmt c b => infer_stmt (infer_expr ctx c).2 b
  | .forStmt forInit c incr b =>
    let ctx1 := type_env_push ctx
    let ctx2 :=
      match forInit with
      | some st => infer_stmt ctx1 st
      | none => ctx1
    let ctx3 :=
      match c with
      | some e => (infer_expr ctx2 e).2
      | none => ctx2
    let ctx4 :=
      match incr with
      | some e => (infer_expr ctx3 e).2
      | none => ctx3
    type_env_pop (infer_stmt ctx4 b)
  | .exprStmt e => (infer_expr ctx e).2
  | .returnStmt v =>
    match v with
    | some e => (infer_expr ctx e).2
    | none => ctx
  | .breakStmt => ctx
  | .continueStmt => ctx

/-- Fold `infer_stmt` over the statements of a block. -/
def infer_stmts (ctx : TypeInferContext) (ss : List Stmt) : TypeInferContext :=
  match ss with
  | [] => ctx
  | s :: rest => infer_stmts (infer_stmt ctx s) rest

end

/-- C10: `infer_meet` is idempotent (`infer_meet(t, t) = t` for every
inferred type `t`) and commutative on kinds
(`infer_meet(a, b).kind = infer_meet(b, a).kind` for all `a`, `b`). -/
theorem infer_meet_idem_and_comm :
    (∀ t : InferredType, infer_meet t t = t) ∧
    (∀ a b : InferredType, (infer_meet a b).kind = (infer_meet b a).kind) := by
  constructor
  · intro t
    simp [infer_meet]
  · intro a b
    rw [infer_meet_kind, infer_meet_kind, kindMeet_comm a.kind b.kind]

/-! ## Lemmas about `type_env_refine` -/

lemma bindingsRefine_eq_none (bs : TypeBindings) (n : String) (t : InferredType) :
    bindingsRefine bs n t = none ↔ bindingsFind bs n = none := by
  induction bs with
  | nil => simp [bindingsRefine, bindingsFind]
  | cons b rest ih =>
    obtain ⟨m, old⟩ := b
    by_cases h : m = n
    · cases hrb : refineBinding old t <;>
        simp [bindingsRefine, bindingsFind, h, hrb]
    · cases hrr : bindingsRefine rest n t <;>
        simp_all [bindingsRefine, bindingsFind, h]

lemma bindingsRefine_find (bs : TypeBindings) (n : String) (t : InferredType) :
    ∀ T, bindingsFind bs n = some T →
      ∀ bs2 ch, bindingsRefine bs n t = some (bs2, ch) →
        bindingsFind bs2 n = some ((refineBinding T t).getD T) := by
  induction bs with
  | nil => intro T hT; simp [bindingsFind] at hT
  | cons b rest ih =>
    obtain ⟨m, old⟩ := b
    intro T hT bs2 ch h
    by_cases hm : m = n
    · simp only [bindingsFind, if_pos hm, Option.some.injEq] at hT
      rw [← hT]
      cases hrb : refineBinding old t with
      | some t2 =>
        simp only [bindingsRefine, if_pos hm, hrb, Option.some.injEq,
          Prod.mk.injEq] at h
        obtain ⟨h1, _⟩ := h
        subst h1
        simp [bindingsFind, hm, hrb]
      | none =>
        simp only [bindingsRefine, if_pos hm, hrb, Option.some.injEq,
          Prod.mk.injEq] at h
        obtain ⟨h1, _⟩ := h
        subst h1
        simp [bindingsFind, hm, hrb]
    · simp only [bindingsFind, if_neg hm] at hT
      simp only [bindingsRefine, if_neg hm] at h
      cases hrr : bindingsRefine rest n t with
      | none => rw [hrr] at h; simp at h
      | some p =>
        obtain ⟨rest2, ch2⟩ := p
        rw [hrr] at h
        simp only [Option.some.injEq, Prod.mk.injEq] at h
        obtain ⟨h1, _⟩ := h
        subst h1
        simpa [bindingsFind, hm] using ih T hT rest2 ch2 hrr

lemma chainRefine_eq_none (scopes : List TypeBindings) (n : String) (t : InferredType) :
    chainRefine scopes n t = none ↔ chainFind scopes n = none := by
  induction scopes with
  | nil => simp [chainRefine, chainFind]
  | cons bs rest ih =>
    cases hbr : bindingsRefine bs n t with
    | some p =>
      have : bindingsFind bs n ≠ none := by
        intro hnone
        rw [(bindingsRefine_eq_none bs n t).mpr hnone] at hbr
        exact absurd hbr (by simp)
      cases hbf : bindingsFind bs n with
      | none => exact absurd hbf this
      | some T => simp [chainRefine, chainFind, hbr, hbf]
    | none =>
      have hbf : bindingsFind bs n = none := (bindingsRefine_eq_none bs n t).mp hbr
      cases hcr : chainRefine rest n t <;>
        simp_all [chainRefine, chainFind, hbr, hbf]

lemma chainRefine_find (scopes : List TypeBindings) (n : String) (t : InferredType) :
    ∀ T, chainFind scopes n = some T →
      ∀ sc2 ch, chainRefine scopes n t = some (sc2, ch) →
        chainFind sc2 n = some ((refineBinding T t).getD T) := by
  induction scopes with
  | nil => intro T hT; simp [chainFind] at hT
  | cons bs rest ih =>
    intro T hT sc2 ch h
    cases hbr : bindingsRefine bs n t with
    | some p =>
      obtain ⟨bs2, ch2⟩ := p
      simp only [chainRefine, hbr, Option.some.injEq, Prod.mk.injEq] at h
      obtain ⟨h1, _⟩ := h
      subst h1
      cases hbf2 : bindingsFind bs n with
      | none =>
        rw [(bindingsRefine_eq_none bs n t).mpr hbf2] at hbr
        simp at hbr
      | some T2 =>
        simp only [chainFind, hbf2, Option.some.injEq] at hT
        rw [← hT]
        have := bindingsRefine_find bs n t T2 hbf2 bs2 ch2 hbr
        simp [chainFind, this]
    | none =>
      have hbf : bindingsFind bs n = none := (bindingsRefine_eq_none bs n t).mp hbr
      simp only [chainRefine, hbr] at h
      simp only [chainFind, hbf] at hT
      cases hcr : chainRefine rest n t with
      | none => rw [hcr] at h; simp at h
      | some p =>
        obtain ⟨rest2, ch2⟩ := p
        rw [hcr] at h
        simp only [Option.some.injEq, Prod.mk.injEq] at h
        obtain ⟨h1, _⟩ := h
        subst h1
        simpa [chainFind, hbf] using ih T hT rest2 ch2 hcr

lemma type_env_refine_chainFind (ctx : TypeInferContext) (n : String)
    (t T : InferredType) (hT : chainFind (chainScopes ctx) n = some T) :
    chainFind (chainScopes (type_env_refine ctx n t)) n =
      some ((refineBinding T t).getD T) := by
  unfold type_env_refine
  cases hbr : bindingsRefine ctx.current n t with
  | some p =>
    obtain ⟨c2, ch⟩ := p
    cases hbf : bindingsFind ctx.current n with
    | none =>
      rw [(bindingsRefine_eq_none _ n t).mpr hbf] at hbr
      simp at hbr
    | some T2 =>
      simp only [chainScopes, chainFind, hbf, Option.some.injEq] at hT
      rw [← hT]
      have := bindingsRefine_find ctx.current n t T2 hbf c2 ch hbr
      simp [chainScopes, chainFind, this]
  | none =>
    have hbf : bindingsFind ctx.current n = none :=
      (bindingsRefine_eq_none _ n t).mp hbr
    simp only [chainScopes, chainFind, hbf] at hT
    cases hcr : chainRefine ctx.parents n t with
    | none =>
      rw [(chainRefine_eq_none _ n t).mp hcr] at hT
      simp at hT
    | some p =>
      obtain ⟨ps2, ch⟩ := p
      have := chainRefine_find ctx.parents n t T hT ps2 ch hcr
      simp [chainScopes, chainFind, hbf, this]

lemma refineBinding_getD (T t : InferredType) :
    (refineBinding T t).getD T =
      if (T.kind = .unknown ∧ t.kind ≠ .unknown)
          ∨ (T.kind = .numeric ∧ (t.kind = .i32 ∨ t.kind = .i64 ∨ t.kind = .integer))
          ∨ (T.kind = .integer ∧ (t.kind = .i32 ∨ t.kind = .i64))
      then t else T := by
  obtain ⟨Tk, Te⟩ := T
  obtain ⟨tk, te⟩ := t
  cases Tk <;> cases tk <;>
    simp [refineBinding, infer_is_integer, InferredType.kind]

/-! ## Claim theorems: type inference -/

/-- Empty inference context, used to instantiate theorems at concrete
inputs. -/
def ctxEmpty : TypeInferContext := ⟨[], [], [], false⟩

/-- C6: a `NUMBER` literal with `is_float` set infers `F64`; otherwise it
infers `I32` exactly when its integer value lies in `[-2^31, 2^31 - 1]`
and `I64` for every value outside that range (`expr_number_int` builds
the non-float node). -/
theorem infer_number_literal (ctx : TypeInferContext) (v : Int) :
    (infer_expr ctx (.number v true)).1 = infer_f64
    ∧ (-2147483648 ≤ v → v ≤ 2147483647 →
        (infer_expr ctx (.number v false)).1 = infer_i32)
    ∧ (v < -2147483648 ∨ 2147483647 < v →
        (infer_expr ctx (.number v false)).1 = infer_i64)
    ∧ (infer_expr ctx (expr_number_int v)).1 =
        (if -2147483648 ≤ v ∧ v ≤ 2147483647 then infer_i32 else infer_i64) := by
  have hred : (infer_expr ctx (.number v false)).1 =
      (if -2147483648 ≤ v ∧ v ≤ 2147483647 then infer_i32 else infer_i64) := rfl
  refine ⟨rfl, ?_, ?_, hred⟩
  · intro h1 h2
    rw [hred, if_pos ⟨h1, h2⟩]
  · intro h
    rw [hred, if_neg (by omega)]

/-- Witness for C6 at concrete literals `5` and `2^31`. -/
theorem infer_number_literal_witness :
    (infer_expr ctxEmpty (.number 5 false)).1 = infer_i32
    ∧ (infer_expr ctxEmpty (.number 2147483648 false)).1 = infer_i64 :=
  ⟨(infer_number_literal ctxEmpty 5).2.1 (by norm_num) (by norm_num),
   (infer_number_literal ctxEmpty 2147483648).2.2.1 (Or.inr (by norm_num))⟩

/-- Context with `x` bound at `I32`, for the C4 counterexample. -/
def ctxAssignI32 : TypeInferContext := ⟨[("x", infer_i32)], [], [], false⟩

/-- C4 counterexample: with `x` bound at `I32` and a right-hand side
inferring `F64`, inferring the `ASSIGN` leaves the binding at `I32`
unchanged, while `infer_meet(I32, F64) = NUMERIC ≠ I32`; so the binding
is not updated to the meet of old and new types. -/
theorem infer_assign_not_meet :
    (infer_expr ctxAssignI32 (.assign "x" (.number 0 true))).1 = infer_f64
    ∧ (infer_expr ctxAssignI32 (.assign "x" (.number 0 true))).2 = ctxAssignI32
    ∧ type_env_lookup (infer_expr ctxAssignI32 (.assign "x" (.number 0 true))).2 "x"
        = infer_i32
    ∧ infer_meet infer_i32 infer_f64 = infer_numeric
    ∧ infer_numeric ≠ infer_i32 := by
  refine ⟨rfl, rfl, rfl, rfl, ?_⟩
  intro h
  exact absurd (congrArg InferredType.kind h) (by decide)

/-- C4 (amended): inferring `ASSIGN n := e` yields the right-hand side's
type `V`, and updates `n`'s innermost binding from `T` to `V` exactly
when `V` is strictly more specific — `T = UNKNOWN` and `V ≠ UNKNOWN`, or
`T = NUMERIC` and `V` is an integer kind, or `T = INTEGER` and `V` is
`I32`/`I64` — and leaves the binding at `T` otherwise (not the lattice
meet of `T` and `V`). -/
theorem infer_assign_refines (ctx : TypeInferContext) (n : String) (e : Expr) :
    (infer_expr ctx (.assign n e)).1 = (infer_expr ctx e).1
    ∧ ∀ T, chainFind (chainScopes (infer_expr ctx e).2) n = some T →
        chainFind (chainScopes (infer_expr ctx (.assign n e)).2) n =
          some (if (T.kind = .unknown ∧ (infer_expr ctx e).1.kind ≠ .unknown)
                  ∨ (T.kind = .numeric ∧ ((infer_expr ctx e).1.kind = .i32
                      ∨ (infer_expr ctx e).1.kind = .i64
                      ∨ (infer_expr ctx e).1.kind = .integer))
                  ∨ (T.kind = .integer ∧ ((infer_expr ctx e).1.kind = .i32
                      ∨ (infer_expr ctx e).1.kind = .i64))
                then (infer_expr ctx e).1 else T) := by
  constructor
  · rfl
  · intro T hT
    have hstep : (infer_expr ctx (.assign n e)).2 =
        type_env_refine (infer_expr ctx e).2 n (infer_expr ctx e).1 := rfl
    rw [hstep, type_env_refine_chainFind (infer_expr ctx e).2 n (infer_expr ctx e).1 T hT,
      refineBinding_getD]

/-- Context with `x` bound at `NUMERIC`, for the C4 witness. -/
def ctxAssignNumeric : TypeInferContext := ⟨[("x", infer_numeric)], [], [], false⟩

/-- Witness for the amended C4: assigning an `I32` literal to a binding
at `NUMERIC` refines it to `I32`. -/
theorem infer_assign_refines_witness :
    chainFind (chainScopes (infer_expr ctxAssignNumeric
        (.assign "x" (.number 1 false))).2) "x" = some infer_i32 := by
  have h := (infer_assign_refines ctxAssignNumeric "x" (.number 1 false)).2
    infer_numeric rfl
  rw [h, if_pos (by decide)]
  rfl

/-- C5 counterexample: `let x: array = 1` binds `x` to `I32` (the
initializer's inferred type), not to the annotated `ARRAY` kind, so a
non-primitive annotation is not used verbatim. -/
theorem infer_let_annot_counterexample :
    bindingsFind (infer_stmt ctxEmpty
        (.letStmt "x" (some .array) (some (.number 1 false)))).current "x"
      = some infer_i32
    ∧ infer_i32 ≠ InferredType.mk .array none := by
  refine ⟨rfl, ?_⟩
  intro h
  exact absurd (congrArg InferredType.kind h) (by decide)

/-- C5 (amended): a `LET` or `CONST` with an explicit annotation binds
the declared name to the annotated kind only for `I32`, `I64`, `BOOL`
and `STRING`; annotations `F32` and `F64` both bind `F64`; every other
annotation kind is ignored and the name is bound to the initializer's
inferred type (`UNKNOWN` when there is no initializer). -/
theorem infer_let_const_annot (ctx : TypeInferContext) (n : String)
    (k : TypeKind) (v : Option Expr) :
    bindingsFind (infer_stmt ctx (.letStmt n (some k) v)).current n =
      some (match k with
            | .i32 => infer_i32
            | .i64 => infer_i64
            | .f32 => infer_f64
            | .f64 => infer_f64
            | .bool => infer_bool
            | .string => infer_string
            | _ => match v with
                   | some e => (infer_expr ctx e).1
                   | none => infer_unknown)
    ∧ bindingsFind (infer_stmt ctx (.constStmt n (some k) v)).current n =
      some (match k with
            | .i32 => infer_i32
            | .i64 => infer_i64
            | .f32 => infer_f64
            | .f64 => infer_f64
            | .bool => infer_bool
            | .string => infer_string
            | _ => match v with
                   | some e => (infer_expr ctx e).1
                   | none => infer_unknown) := by
  cases v <;> cases k <;>
    exact ⟨by simp [infer_stmt, type_env_bind, bindingsFind, annotKindType],
           by simp [infer_stmt, type_env_bind, bindingsFind, annotKindType]⟩

/-! ## Interpreter values (`values.c`) -/

/-- Interpreter `Value` tags and payloads.  Machine integers are carried
as `Int`/`Nat`; `f32`/`f64` payloads are carried as their raw bit
patterns (no claim computes with them); heap payloads irrelevant to the
claims (`function`, `builtin_fn`, `ptr`, `file`) are tagged only. -/
inductive Value where
  | vI8 (n : Int)
  | vI16 (n : Int)
  | vI32 (n : Int)
  | vU8 (n : Nat)
  | vU16 (n : Nat)
  | vU32 (n : Nat)
  | vF32 (bits : Nat)
  | vF64 (bits : Nat)
  | vBool (b : Bool)
  | vString (s : String)
  | vPtr
  | vBuffer (bytes : List Nat)
  | vArray (elems : List Value)
  | vFile
  | vObject (typeName : Option String) (fields : List (String × Value))
  | vType (k : TypeKind)
  | vBuiltinFn
  | vFunction
  | vNull

/-! ## Interpreter environment (`environment.c`) -/

/-- One `(name, value, is_const)` triple of an `Environment`. -/
structure Binding where
  name : String
  value : Value
  isConst : Bool

/-- One scope: its bindings in insertion order (index 0 first). -/
abbrev Scope := List Binding

/-- The redeclaration fault of `env_define`. -/
def redeclError (n : String) : RuntimeError :=
  ⟨"Variable " ++ sq ++ n ++ sq ++ " already defined in this scope", 1⟩

/-- The const-write fault of `env_set`. -/
def constAssignError (n : String) : RuntimeError :=
  ⟨"Cannot assign to const variable " ++ sq ++ n ++ sq, 1⟩

/-- First binding of `n` in one scope (the C linear scan). -/
def scopeFind (s : Scope) (n : String) : Option Binding :=
  match s with
  | [] => none
  | b :: rest => if b.name = n then some b else scopeFind rest n

/-- `env_define`: fail if `n` already exists in the current scope,
otherwise append `(n, v, isConst)` to it.  The C function never reads the
parent pointer, so parent scopes cannot trigger the failure. -/
def env_define (current : Scope) (n : String) (v : Value) (isConst : Bool) :
    Except RuntimeError Scope :=
  if (scopeFind current n).isSome then .error (redeclError n)
  else .ok (current ++ [⟨n, v, isConst⟩])

/-- The in-scope half of `env_set`: `none` when the scope does not bind
`n`; otherwise fail on a const binding or overwrite the first binding's
value. -/
def scopeAssign (s : Scope) (n : String) (v : Value) :
    Option (Except RuntimeError Scope) :=
  match s with
  | [] => none
  | b :: rest =>
    if b.name = n then
      if b.isConst then some (.error (constAssignError n))
      else some (.ok ({ b with value := v } :: rest))
    else
      match scopeAssign rest n v with
      | none => none
      | some (.error e) => some (.error e)
      | some (.ok rest2) => some (.ok (b :: rest2))

/-- The parent-walk half of `env_set` over a list of scopes (innermost
first). -/
def chainAssign (scopes : List Scope) (n : String) (v : Value) :
    Option (Except RuntimeError (List Scope)) :=
  match scopes with
  | [] => none
  | s :: rest =>
    match scopeAssign s n v with
    | some (.error e) => some (.error e)
    | some (.ok s2) => some (.ok (s2 :: rest))
    | none =>
      match chainAssign rest n v with
      | none => none
      | some (.error e) => some (.error e)
      | some (.ok rest2) => some (.ok (s :: rest2))

/-- `env_set`: write to the first binding of `n` in the current scope,
else walk the parent chain; fail on a const binding; if no scope binds
`n`, append a new mutable binding to the current scope. -/
def env_set (current : Scope) (parents : List Scope) (n : String) (v : Value) :
    Except RuntimeError (Scope × List Scope) :=
  match scopeAssign current n v with
  | some (.error e) => .error e
  | some (.ok s2) => .ok (s2, parents)
  | none =>
    match chainAssign parents n v with
    | some (.error e) => .error e
    | some (.ok ps2) => .ok (current, ps2)
    | none => .ok (current ++ [⟨n, v, false⟩], parents)

/-- Overwrite the value of the first binding of `n` in a scope. -/
def scopeUpdate (s : Scope) (n : String) (v : Value) : Scope :=
  match s with
  | [] => []
  | b :: rest =>
    if b.name = n then { b with value := v } :: rest
    else b :: scopeUpdate rest n v

/-! ## Lemmas about `env_set` -/

lemma scopeAssign_eq_none (s : Scope) (n : String) (v : Value) :
    scopeAssign s n v = none ↔ scopeFind s n = none := by
  induction s with
  | nil => simp [scopeAssign, scopeFind]
  | cons b rest ih =>
    by_cases h : b.name = n
    · by_cases hc : b.isConst <;> simp [scopeAssign, scopeFind, h, hc]
    · cases hr : scopeAssign rest n v with
      | none => simp_all [scopeAssign, scopeFind, h]
      | some r => cases r <;> simp_all [scopeAssign, scopeFind, h]

lemma scopeAssign_found (s : Scope) (n : String) (v : Value) :
    ∀ b, scopeFind s n = some b →
      scopeAssign s n v =
        some (if b.isConst then .error (constAssignError n)
              else .ok (scopeUpdate s n v)) := by
  induction s with
  | nil => intro b hb; simp [scopeFind] at hb
  | cons c rest ih =>
    intro b hb
    by_cases h : c.name = n
    · simp only [scopeFind, if_pos h, Option.some.injEq] at hb
      rw [← hb]
      by_cases hc : c.isConst <;>
        simp [scopeAssign, scopeUpdate, h, hc]
    · simp only [scopeFind, if_neg h] at hb
      have := ih b hb
      by_cases hc : b.isConst <;>
        simp_all [scopeAssign, scopeUpdate, h, hc]

lemma chainAssign_eq_none (scopes : List Scope) (n : String) (v : Value) :
    chainAssign scopes n v = none ↔ ∀ s ∈ scopes, scopeFind s n = none := by
  induction scopes with
  | nil => simp [chainAssign]
  | cons s rest ih =>
    cases hs : scopeAssign s n v with
    | none =>
      have hf : scopeFind s n = none := (scopeAssign_eq_none s n v).mp hs
      cases hr : chainAssign rest n v with
      | none => simp_all [chainAssign, hs, hf]
      | some r => cases r <;> simp_all [chainAssign, hs, hf]
    | some r =>
      have hf : scopeFind s n ≠ none := by
        intro hnone
        rw [(scopeAssign_eq_none s n v).mpr hnone] at hs
        simp at hs
      cases r <;> simp_all [chainAssign, hs]

/-! ## Claim theorems: environment -/

/-- C7: `env_define(env, n, v, c)` fails with message
`Variable 'n' already defined in this scope` and exit code 1 exactly when
the current scope already binds `n` (the function reads no parent scope,
so a parent binding alone can never trigger the failure), and otherwise
appends `(n, v, c)` to the current scope. -/
theorem env_define_spec (current : Scope) (n : String) (v : Value) (c : Bool) :
    ((scopeFind current n).isSome →
      env_define current n v c = .error (redeclError n))
    ∧ (scopeFind current n = none →
      env_define current n v c = .ok (current ++ [⟨n, v, c⟩])) := by
  constructor
  · intro h
    simp [env_define, h]
  · intro h
    simp [env_define, h]

/-- Witness for C7: redefining `x` in the same scope fails with the
redeclaration message and exit code 1; defining a fresh `y` appends it. -/
theorem env_define_spec_witness :
    env_define [⟨"x", .vI32 1, false⟩] "x" (.vI32 2) false =
      .error ⟨"Variable " ++ sq ++ "x" ++ sq ++ " already defined in this scope", 1⟩
    ∧ env_define [⟨"x", .vI32 1, false⟩] "y" (.vI32 2) true =
      .ok [⟨"x", .vI32 1, false⟩, ⟨"y", .vI32 2, true⟩] := by
  constructor
  · exact (env_define_spec [⟨"x", .vI32 1, false⟩] "x" (.vI32 2) false).1 (by
      simp [scopeFind])
  · exact (env_define_spec [⟨"x", .vI32 1, false⟩] "y" (.vI32 2) true).2 (by
      simp [scopeFind])

/-- C1: `env_set(env, n, v)` writes `v` to the binding of `n` in the
innermost scope containing `n` (current scope first, then each parent in
order); if that binding is const it fails with message
`Cannot assign to const variable 'n'` and exit code 1; and if no scope in
the chain binds `n`, it appends a new non-const binding `(n, v)` to the
current scope. -/
theorem env_set_spec (current : Scope) (parents : List Scope) (n : String)
    (v : Value) :
    ((∀ s ∈ current :: parents, scopeFind s n = none) →
      env_set current parents n v = .ok (current ++ [⟨n, v, false⟩], parents))
    ∧ (∀ b, scopeFind current n = some b →
      env_set current parents n v =
        (if b.isConst then .error (constAssignError n)
         else .ok (scopeUpdate current n v, parents)))
    ∧ (∀ ps1 p ps2 b, parents = ps1 ++ p :: ps2 →
      scopeFind current n = none →
      (∀ s ∈ ps1, scopeFind s n = none) →
      scopeFind p n = some b →
      env_set current parents n v =
        (if b.isConst then .error (constAssignError n)
         else .ok (current, ps1 ++ scopeUpdate p n v :: ps2))) := by
  refine ⟨?_, ?_, ?_⟩
  · intro h
    have hc : scopeFind current n = none := h current (by simp)
    have hp : ∀ s ∈ parents, scopeFind s n = none := fun s hs => h s (by simp [hs])
    rw [env_set, (scopeAssign_eq_none current n v).mpr hc,
      (chainAssign_eq_none parents n v).mpr hp]
  · intro b hb
    rw [env_set, scopeAssign_found current n v b hb]
    by_cases hc : b.isConst <;> simp [hc]
  · intro ps1 p ps2 b hps hcur hps1 hp
    subst hps
    rw [env_set, (scopeAssign_eq_none current n v).mpr hcur]
    have hchain : ∀ ps1 : List Scope, (∀ s ∈ ps1, scopeFind s n = none) →
        chainAssign (ps1 ++ p :: ps2) n v =
          some (if b.isConst then .error (constAssignError n)
                else .ok (ps1 ++ scopeUpdate p n v :: ps2)) := by
      intro ps1 hnone
      induction ps1 with
      | nil =>
        rw [List.nil_append, chainAssign, scopeAssign_found p n v b hp]
        by_cases hc : b.isConst <;> simp [hc]
      | cons s rest ih =>
        have hs : scopeFind s n = none := hnone s (by simp)
        have hrest : ∀ u ∈ rest, scopeFind u n = none :=
          fun u hu => hnone u (by simp [hu])
        rw [List.cons_append, chainAssign,
          (scopeAssign_eq_none s n v).mpr hs, ih hrest]
        by_cases hc : b.isConst <;> simp [hc]
    rw [hchain ps1 hps1]
    by_cases hc : b.isConst <;> simp [hc]

/-- Witness for C1: updating a mutable binding in a parent scope,
failing on a const binding, and implicitly creating a missing name in
the current scope. -/
theorem env_set_spec_witness :
    env_set [] [[⟨"x", .vI32 1, false⟩]] "x" (.vI32 2) =
      .ok ([], [[⟨"x", .vI32 2, false⟩]])
    ∧ env_set [⟨"k", .vI32 7, true⟩] [] "k" (.vI32 8) =
      .error ⟨"Cannot assign to const variable " ++ sq ++ "k" ++ sq, 1⟩
    ∧ env_set [⟨"a", .vNull, false⟩] [] "b" (.vBool true) =
      .ok ([⟨"a", .vNull, false⟩, ⟨"b", .vBool true, false⟩], []) := by
  refine ⟨?_, ?_, ?_⟩
  · have h := (env_set_spec [] [[⟨"x", .vI32 1, false⟩]] "x" (.vI32 2)).2.2
      [] [⟨"x", .vI32 1, false⟩] [] ⟨"x", .vI32 1, false⟩ rfl (by simp [scopeFind])
      (by simp) (by simp [scopeFind])
    simpa [scopeUpdate] using h
  · have h := (env_set_spec [⟨"k", .vI32 7, true⟩] [] "k" (.vI32 8)).2.1
      ⟨"k", .vI32 7, true⟩ (by simp [scopeFind])
    simpa [constAssignError] using h
  · have h := (env_set_spec [⟨"a", .vNull, false⟩] [] "b" (.vBool true)).1 (by
      intro s hs
      simp at hs
      subst hs
      simp [scopeFind])
    simpa using h

/-! ## Interpreter arrays (`values.c`) -/

/-- The out-of-bounds fault of `array_get` / `hml_array_get`. -/
def indexOobError (idx : Int) (len : Nat) : RuntimeError :=
  ⟨"Array index " ++ toString idx ++ " out of bounds (length " ++
    toString len ++ ")", 1⟩

/-- `array_get` from `values.c`: bounds-checked element read. -/
def array_get (arr : List Value) (index : Int) : Except RuntimeError Value :=
  if h : index < 0 ∨ (arr.length : Int) ≤ index then
    .error (indexOobError index arr.length)
  else .ok (arr.get ⟨index.toNat, by omega⟩)

/-- `array_pop` from `values.c`: `NULL` on an empty array (length
untouched), otherwise remove and return the last element. -/
def array_pop (arr : List Value) : Value × List Value :=
  match arr with
  | [] => (.vNull, [])
  | x :: xs => ((x :: xs).getLast (List.cons_ne_nil x xs), (x :: xs).dropLast)

/-! ## Runtime values (`runtime`, as used by `builtins_array.c`) -/

/-- `HmlValueType`: the runtime value tag. -/
inductive HmlValueType where
  | null
  | bool
  | i8
  | i16
  | i32
  | i64
  | u8
  | u16
  | u32
  | f32
  | f64
  | string
  | array
  | object
  | buffer
  | file
  | function
  | builtinFn
  | closure
  | ptr
  | typeTag
deriving DecidableEq, Repr

/-- Runtime values.  An array carries its `element_type` constraint
(`HML_VAL_NULL` = untyped) and its elements; float payloads are raw bit
patterns. -/
inductive HmlValue where
  | vNull
  | vBool (b : Bool)
  | vI8 (n : Int)
  | vI16 (n : Int)
  | vI32 (n : Int)
  | vI64 (n : Int)
  | vU8 (n : Nat)
  | vU16 (n : Nat)
  | vU32 (n : Nat)
  | vF32 (bits : Nat)
  | vF64 (bits : Nat)
  | vString (s : String)
  | vArray (elementType : HmlValueType) (elems : List HmlValue)
  | vObject
  | vBuffer (bytes : List Nat)
  | vFile
  | vFunction
  | vBuiltinFn
  | vPtr

/-- The `.type` tag of a runtime value. -/
def HmlValue.type : HmlValue → HmlValueType
  | .vNull => .null
  | .vBool _ => .bool
  | .vI8 _ => .i8
  | .vI16 _ => .i16
  | .vI32 _ => .i32
  | .vI64 _ => .i64
  | .vU8 _ => .u8
  | .vU16 _ => .u16
  | .vU32 _ => .u32
  | .vF32 _ => .f32
  | .vF64 _ => .f64
  | .vString _ => .string
  | .vArray _ _ => .array
  | .vObject => .object
  | .vBuffer _ => .buffer
  | .vFile => .file
  | .vFunction => .function
  | .vBuiltinFn => .builtinFn
  | .vPtr => .ptr

/-! ## Runtime array builtins (`builtins_array.c`).

Each builtin takes the target array as its `element_type` tag plus its
element list (the C code mutates the `HmlArray` in place; the updated
element list is returned). -/

/-- The typed-array fault shared by push/unshift/insert/set. -/
def typeMismatchError : RuntimeError :=
  ⟨"Type mismatch in typed array - expected element of specific type", 1⟩

/-- `hml_array_push`. -/
def hml_array_push (elementType : HmlValueType) (elems : List HmlValue)
    (val : HmlValue) : Except RuntimeError (List HmlValue) :=
  if elementType ≠ .null ∧ val.type ≠ elementType then .error typeMismatchError
  else .ok (elems ++ [val])

/-- `hml_array_get`. -/
def hml_array_get (elems : List HmlValue) (idx : Int) :
    Except RuntimeError HmlValue :=
  if h : idx < 0 ∨ (elems.length : Int) ≤ idx then
    .error (indexOobError idx elems.length)
  else .ok (elems.get ⟨idx.toNat, by omega⟩)

/-- `hml_array_set`: typed check on the written value, negative-index
check, then extension with `NULL` padding up to the index and the
overwrite. -/
def hml_array_set (elementType : HmlValueType) (elems : List HmlValue)
    (idx : Int) (val : HmlValue) : Except RuntimeError (List HmlValue) :=
  if elementType ≠ .null ∧ val.type ≠ elementType then .error typeMismatchError
  else if idx < 0 then .error ⟨"Negative array index not supported", 1⟩
  else .ok ((elems ++ List.replicate (idx.toNat + 1 - elems.length)
      HmlValue.vNull).set idx.toNat val)

/-- `hml_array_pop`. -/
def hml_array_pop (elems : List HmlValue) : HmlValue × List HmlValue :=
  match elems with
  | [] => (.vNull, [])
  | x :: xs => ((x :: xs).getLast (List.cons_ne_nil x xs), (x :: xs).dropLast)

/-- `hml_array_shift`. -/
def hml_array_shift (elems : List HmlValue) : HmlValue × List HmlValue :=
  match elems with
  | [] => (.vNull, [])
  | x :: xs => (x, xs)

/-- `hml_array_unshift`. -/
def hml_array_unshift (elementType : HmlValueType) (elems : List HmlValue)
    (val : HmlValue) : Except RuntimeError (List HmlValue) :=
  if elementType ≠ .null ∧ val.type ≠ elementType then .error typeMismatchError
  else .ok (val :: elems)

/-- The out-of-bounds fault of `hml_array_insert`. -/
def insertOobError (idx : Int) (len : Nat) : RuntimeError :=
  ⟨"insert index " ++ toString idx ++ " out of bounds (length " ++
    toString len ++ ")", 1⟩

/-- `hml_array_insert`: typed check first, then the `0 ≤ idx ≤ length`
bounds check, then the shifted insertion. -/
def hml_array_insert (elementType : HmlValueType) (elems : List HmlValue)
    (idx : Int) (val : HmlValue) : Except RuntimeError (List HmlValue) :=
  if elementType ≠ .null ∧ val.type ≠ elementType then .error typeMismatchError
  else if idx < 0 ∨ (elems.length : Int) < idx then
    .error (insertOobError idx elems.length)
  else .ok (elems.take idx.toNat ++ val :: elems.drop idx.toNat)

/-- `hml_array_reduce`, with the callback dispatch
(`hml_call_function`) abstracted as a Lean function. -/
def hml_array_reduce (f : HmlValue → HmlValue → HmlValue)
    (elems : List HmlValue) (initial : HmlValue) :
    Except RuntimeError HmlValue :=
  match elems with
  | [] =>
    if initial.type = .null then
      .error ⟨"reduce() of empty array with no initial value", 1⟩
    else .ok initial
  | x :: xs =>
    if initial.type = .null then .ok (xs.foldl f x)
    else .ok ((x :: xs).foldl f initial)

/-! ## Claim theorems: arrays -/

/-- C3: indexed read (`array_get` in the interpreter, `hml_array_get` in
the runtime) returns element `i` exactly when `0 ≤ i < length`; otherwise
it fails with message `Array index N out of bounds (length M)` and exit
code 1, and it never returns a value for a negative or too-large index. -/
theorem array_get_bounds (arrI : List Value) (arr : List HmlValue) (i : Int) :
    (0 ≤ i → i < (arrI.length : Int) →
      ∃ v, arrI[i.toNat]? = some v ∧ array_get arrI i = .ok v)
    ∧ (i < 0 ∨ (arrI.length : Int) ≤ i →
      array_get arrI i = .error (indexOobError i arrI.length))
    ∧ (∀ v, array_get arrI i = .ok v → 0 ≤ i ∧ i < (arrI.length : Int))
    ∧ (0 ≤ i → i < (arr.length : Int) →
      ∃ v, arr[i.toNat]? = some v ∧ hml_array_get arr i = .ok v)
    ∧ (i < 0 ∨ (arr.length : Int) ≤ i →
      hml_array_get arr i = .error (indexOobError i arr.length))
    ∧ (∀ v, hml_array_get arr i = .ok v → 0 ≤ i ∧ i < (arr.length : Int)) := by
  refine ⟨?_, ?_, ?_, ?_, ?_, ?_⟩
  · intro h1 h2
    have hn : ¬(i < 0 ∨ (arrI.length : Int) ≤ i) := by omega
    have hlt : i.toNat < arrI.length := by omega
    refine ⟨arrI.get ⟨i.toNat, hlt⟩, ?_, ?_⟩
    · simp [List.getElem?_eq_getElem hlt]
    · rw [array_get, dif_neg hn]
  · intro h
    rw [array_get, dif_pos h]
  · intro v hv
    by_cases hb : i < 0 ∨ (arrI.length : Int) ≤ i
    · rw [array_get, dif_pos hb] at hv
      exact absurd hv (by simp)
    · omega
  · intro h1 h2
    have hn : ¬(i < 0 ∨ (arr.length : Int) ≤ i) := by omega
    have hlt : i.toNat < arr.length := by omega
    refine ⟨arr.get ⟨i.toNat, hlt⟩, ?_, ?_⟩
    · simp [List.getElem?_eq_getElem hlt]
    · rw [hml_array_get, dif_neg hn]
  · intro h
    rw [hml_array_get, dif_pos h]
  · intro v hv
    by_cases hb : i < 0 ∨ (arr.length : Int) ≤ i
    · rw [hml_array_get, dif_pos hb] at hv
      exact absurd hv (by simp)
    · omega

/-- Witness for C3: reading index 1 of a 2-element array succeeds;
reading index 5 of a 2-element array fails with
`Array index 5 out of bounds (length 2)` and exit code 1. -/
theorem array_get_bounds_witness :
    hml_array_get [.vI32 1, .vI32 2] 5 =
      .error ⟨"Array index 5 out of bounds (length 2)", 1⟩
    ∧ array_get [.vI32 10, .vI32 20] 1 = .ok (.vI32 20) := by
  constructor
  · have h := (array_get_bounds [] [.vI32 1, .vI32 2] 5).2.2.2.2.1
      (Or.inr (by norm_num))
    simpa [indexOobError] using h
  · obtain ⟨v, hv, hget⟩ := (array_get_bounds [.vI32 10, .vI32 20] [] 1).1
      (by norm_num) (by norm_num)
    simp at hv
    rw [hget, hv]

/-- C9: on an empty array, `array_pop`, `hml_array_pop` and
`hml_array_shift` return `NULL` and leave the array unchanged (their
return type has no error case, so unlike indexed read they cannot raise
out-of-bounds); on a non-empty array they remove and return the last
(resp. first) element and shrink the length by exactly one. -/
theorem pop_shift_spec (arrI : List Value) (arr : List HmlValue) :
    (arrI = [] → array_pop arrI = (.vNull, arrI))
    ∧ (∀ v, arrI.getLast? = some v →
      array_pop arrI = (v, arrI.dropLast) ∧ arrI.dropLast.length + 1 = arrI.length)
    ∧ (arr = [] → hml_array_pop arr = (.vNull, arr))
    ∧ (∀ v, arr.getLast? = some v →
      hml_array_pop arr = (v, arr.dropLast) ∧ arr.dropLast.length + 1 = arr.length)
    ∧ (arr = [] → hml_array_shift arr = (.vNull, arr))
    ∧ (∀ v, arr.head? = some v →
      hml_array_shift arr = (v, arr.tail) ∧ arr.tail.length + 1 = arr.length) := by
  refine ⟨?_, ?_, ?_, ?_, ?_, ?_⟩
  · intro h
    subst h
    rfl
  · intro v hv
    cases arrI with
    | nil => simp at hv
    | cons x xs =>
      rw [List.getLast?_eq_getLast _ (List.cons_ne_nil x xs),
        Option.some.injEq] at hv
      constructor
      · rw [array_pop, hv]
      · simp [List.length_dropLast]
  · intro h
    subst h
    rfl
  · intro v hv
    cases arr with
    | nil => simp at hv
    | cons x xs =>
      rw [List.getLast?_eq_getLast _ (List.cons_ne_nil x xs),
        Option.some.injEq] at hv
      constructor
      · rw [hml_array_pop, hv]
      · simp [List.length_dropLast]
  · intro h
    subst h
    rfl
  · intro v hv
    cases arr with
    | nil => simp at hv
    | cons x xs =>
      simp only [List.head?_cons, Option.some.injEq] at hv
      subst hv
      exact ⟨rfl, by simp⟩

/-- Witness for C9 on `[1, 2]` and on the empty array. -/
theorem pop_shift_spec_witness :
    array_pop [] = (.vNull, [])
    ∧ hml_array_pop [.vI32 1, .vI32 2] = (.vI32 2, [.vI32 1])
    ∧ hml_array_shift [.vI32 1, .vI32 2] = (.vI32 1, [.vI32 2]) := by
  refine ⟨(pop_shift_spec [] []).1 rfl, ?_, ?_⟩
  · have h := (pop_shift_spec [] [.vI32 1, .vI32 2]).2.2.2.1 (.vI32 2) rfl
    simpa using h.1
  · have h := (pop_shift_spec [] [.vI32 1, .vI32 2]).2.2.2.2.2 (.vI32 1) rfl
    simpa using h.1

/-- C8: `hml_array_reduce(arr, f, initial)` on an empty array fails with
`reduce() of empty array with no initial value` and exit code 1 exactly
when `initial` is `NULL` and returns `initial` otherwise; on a non-empty
array it left-folds `f` starting from element 0 when `initial` is `NULL`
and starting from `initial` over all elements otherwise. -/
theorem reduce_spec (f : HmlValue → HmlValue → HmlValue)
    (elems : List HmlValue) (initial : HmlValue) :
    (elems = [] → initial.type = .null →
      hml_array_reduce f elems initial =
        .error ⟨"reduce() of empty array with no initial value", 1⟩)
    ∧ (elems = [] → initial.type ≠ .null →
      hml_array_reduce f elems initial = .ok initial)
    ∧ (∀ x xs, elems = x :: xs → initial.type = .null →
      hml_array_reduce f elems initial = .ok (xs.foldl f x))
    ∧ (elems ≠ [] → initial.type ≠ .null →
      hml_array_reduce f elems initial = .ok (elems.foldl f initial)) := by
  refine ⟨?_, ?_, ?_, ?_⟩
  · intro he hi
    subst he
    simp [hml_array_reduce, hi]
  · intro he hi
    subst he
    simp [hml_array_reduce, hi]
  · intro x xs he hi
    subst he
    simp [hml_array_reduce, hi]
  · intro he hi
    cases elems with
    | nil => exact absurd rfl he
    | cons x xs => simp [hml_array_reduce, hi]

/-- Witness for C8: the four reduce behaviours at concrete inputs. -/
theorem reduce_spec_witness :
    hml_array_reduce (fun _ b => b) [] .vNull =
      .error ⟨"reduce() of empty array with no initial value", 1⟩
    ∧ hml_array_reduce (fun _ b => b) [] (.vI32 5) = .ok (.vI32 5)
    ∧ hml_array_reduce (fun _ b => b) [.vI32 1, .vI32 2] .vNull = .ok (.vI32 2)
    ∧ hml_array_reduce (fun _ b => b) [.vI32 1] (.vI32 5) = .ok (.vI32 1) := by
  refine ⟨?_, ?_, ?_, ?_⟩
  · exact (reduce_spec (fun _ b => b) [] .vNull).1 rfl rfl
  · exact (reduce_spec (fun _ b => b) [] (.vI32 5)).2.1 rfl (by simp [HmlValue.type])
  · have h := (reduce_spec (fun _ b => b) [.vI32 1, .vI32 2] .vNull).2.2.1
      (.vI32 1) [.vI32 2] rfl rfl
    simpa using h
  · have h := (reduce_spec (fun _ b => b) [.vI32 1] (.vI32 5)).2.2.2
      (by simp) (by simp [HmlValue.type])
    simpa using h

/-- C2 counterexample: on a typed `I32` array of length 0, the indexed
write `hml_array_set` at index 1 with a matching `I32` value succeeds but
pads position 0 with a `NULL` element whose type differs from the
element-type tag — so a successful write can introduce a mismatched
element. -/
theorem typed_array_set_pads_counterexample :
    hml_array_set .i32 [] 1 (.vI32 7) = .ok [.vNull, .vI32 7]
    ∧ HmlValue.type .vNull ≠ .i32
    ∧ HmlValue.type (.vI32 7) = .i32 := by
  refine ⟨rfl, by decide, rfl⟩

lemma set_append_last {α : Type} (l : List α) (a b : α) :
    (l ++ [a]).set l.length b = l ++ [b] := by
  induction l with
  | nil => rfl
  | cons x xs ih => simp [ih]

/-- C2 (amended): on a typed array (`element_type ≠ NULL`) whose elements
all match the tag, a value that does not match the tag makes push,
unshift, insert and indexed set fail with the type-mismatch error; a
successful push, unshift or insert, and a successful indexed set at an
index `≤ length`, again leave every element matching the tag.  (Indexed
set at an index `> length` succeeds for a matching value but introduces
`NULL` padding elements violating the tag — see the counterexample.) -/
theorem typed_array_writes (et : HmlValueType) (elems : List HmlValue)
    (val : HmlValue) (i : Int) (hnn : et ≠ .null)
    (hall : ∀ x ∈ elems, x.type = et) :
    (val.type ≠ et →
      hml_array_push et elems val = .error typeMismatchError
      ∧ hml_array_unshift et elems val = .error typeMismatchError
      ∧ hml_array_insert et elems i val = .error typeMismatchError
      ∧ hml_array_set et elems i val = .error typeMismatchError)
    ∧ (∀ out, hml_array_push et elems val = .ok out → ∀ x ∈ out, x.type = et)
    ∧ (∀ out, hml_array_unshift et elems val = .ok out → ∀ x ∈ out, x.type = et)
    ∧ (∀ out, hml_array_insert et elems i val = .ok out → ∀ x ∈ out, x.type = et)
    ∧ (i ≤ (elems.length : Int) →
      ∀ out, hml_array_set et elems i val = .ok out → ∀ x ∈ out, x.type = et) := by
  refine ⟨?_, ?_, ?_, ?_, ?_⟩
  · intro hv
    refine ⟨?_, ?_, ?_, ?_⟩ <;>
      simp [hml_array_push, hml_array_unshift, hml_array_insert,
        hml_array_set, hnn, hv]
  · intro out hout
    rw [hml_array_push] at hout
    split_ifs at hout with hg
    have hv : val.type = et := by tauto
    simp only [Except.ok.injEq] at hout
    subst hout
    intro x hx
    rcases List.mem_append.mp hx with h | h
    · exact hall x h
    · simp at h
      subst h
      exact hv
  · intro out hout
    rw [hml_array_unshift] at hout
    split_ifs at hout with hg
    have hv : val.type = et := by tauto
    simp only [Except.ok.injEq] at hout
    subst hout
    intro x hx
    rcases List.mem_cons.mp hx with h | h
    · subst h
      exact hv
    · exact hall x h
  · intro out hout
    rw [hml_array_insert] at hout
    split_ifs at hout with hg hb
    have hv : val.type = et := by tauto
    simp only [Except.ok.injEq] at hout
    subst hout
    intro x hx
    rcases List.mem_append.mp hx with h | h
    · exact hall x (List.take_subset _ _ h)
    · rcases List.mem_cons.mp h with h2 | h2
      · subst h2
        exact hv
      · exact hall x (List.drop_subset _ _ h2)
  · intro hle out hout
    rw [hml_array_set] at hout
    split_ifs at hout with hg hneg
    have hv : val.type = et := by tauto
    simp only [Except.ok.injEq] at hout
    by_cases hlt : i.toNat < elems.length
    · have hrep : i.toNat + 1 - elems.length = 0 := by omega
      rw [hrep] at hout
      simp only [List.replicate_zero, List.append_nil] at hout
      subst hout
      intro x hx
      rcases List.mem_or_eq_of_mem_set hx with h | h
      · exact hall x h
      · subst h
        exact hv
    · have heq : i.toNat = elems.length := by omega
      have hrep : i.toNat + 1 - elems.length = 1 := by omega
      rw [hrep, heq] at hout
      simp only [List.replicate_one] at hout
      rw [set_append_last] at hout
      subst hout
      intro x hx
      rcases List.mem_append.mp hx with h | h
      · exact hall x h
      · simp at h
        subst h
        exact hv

/-- Witness for the amended C2: a mismatched push on a typed `I32` array
fails, and a matching push preserves the all-`I32` invariant. -/
theorem typed_array_writes_witness :
    hml_array_push .i32 [.vI32 1] (.vBool true) = .error typeMismatchError
    ∧ ∀ x ∈ ([HmlValue.vI32 1, HmlValue.vI32 2] : List HmlValue),
        HmlValue.type x = .i32 := by
  constructor
  · exact ((typed_array_writes .i32 [.vI32 1] (.vBool true) 0 (by decide)
      (by decide)).1 (by decide)).1
  · exact (typed_array_writes .i32 [.vI32 1] (.vI32 2) 0 (by decide)
      (by decide)).2.1 [.vI32 1, .vI32 2] rfl

end Hemlock
